import Mathlib

/-!
Verification development for the FET measurement application
(FET_Measurement_GUI.py and the original-file scripts).

The measurement logic is shallowly embedded over exact rationals:
Python floats become rationals, `np.linspace` and Python's
truncating `int()` are transcribed directly, and the worker threads
of MeasurementController become state-passing interpreters driven by
an explicit environment that supplies instrument responses and the
values of the shared `is_measuring` / `is_paused` flags at each
observation point.  `time.sleep` has no observable effect in the
embedding and is dropped; the pause busy-wait loop receives an
explicit fuel bound (all environments considered make it terminate
well within the fuel).
-/

/-- Python's `int()` applied to an exact rational: truncation toward zero
(`Int.tdiv` is truncating division, and a rational's denominator is positive). -/
def pyInt (q : ℚ) : ℤ :=
  q.num.tdiv q.den

/-- The point count computed by the workers:
`int((to - from)/step) + 1` (lines 264, 276, 360, 372 of the GUI). -/
def pointCount (lo hi step : ℚ) : ℤ :=
  pyInt ((hi - lo) / step) + 1

/-- `np.linspace a b n`: `n` evenly spaced samples from `a` to `b` inclusive. -/
def linspace (a b : ℚ) (n : ℕ) : List ℚ :=
  if n ≤ 1 then (List.range n).map (fun _ => a)
  else (List.range n).map (fun i : ℕ => a + (i : ℚ) * (b - a) / ((n : ℚ) - 1))

/-- The list of voltages an axis sweeps:
`np.linspace(from, to, int((to - from)/step) + 1)` as in the workers. -/
def sweepValues (lo hi step : ℚ) : List ℚ :=
  linspace lo hi (pointCount lo hi step).toNat

/-- The two instrument channels ('vds' and 'vg' in InstrumentController). -/
inductive Chan
  | vds
  | vg
deriving DecidableEq, Repr

/-- One measurement point sent on the data queue (the dict built in the
workers: swept value, the two currents, the held value, and progress). -/
structure DataPoint where
  swept : ℚ
  ids : ℚ
  ig : ℚ
  fixed : ℚ
  progress : ℚ
deriving DecidableEq, Repr

/-- An event on the GUI data queue: `('data', …)`, `('error', …)` or
`('complete', …)`. -/
inductive Event
  | data (p : DataPoint)
  | error
  | complete
deriving DecidableEq, Repr

/-- The environment a worker runs against: the instrument's response to the
n-th query (`none` models a transport/parse exception), and the values of the
shared `is_measuring` / `is_paused` flags at the n-th flag observation. -/
structure Env where
  read : ℕ → Option ℚ
  measuring : ℕ → Bool
  paused : ℕ → Bool

/-- Observable state threaded through a worker: the query counter, the flag
observation counter, the events put on the data queue, the CSV rows appended
(`[swept, ids, ig]` as a triple), the voltage commands issued
(`:SOUR:VOLT`), and `current_point`. -/
@[ext]
structure WState where
  qTick : ℕ
  fTick : ℕ
  events : List Event
  rows : List (ℚ × ℚ × ℚ)
  cmds : List (Chan × ℚ)
  point : ℕ
deriving DecidableEq, Repr

/-- The state at the start of a run. -/
def initState : WState :=
  ⟨0, 0, [], [], [], 0⟩

/-- `InstrumentController.set_voltage_and_read`: issue a source command,
then a query; the query's response may fail to arrive/parse. -/
def set_voltage_and_read (env : Env) (c : Chan) (v : ℚ) (st : WState) :
    Option ℚ × WState :=
  (env.read st.qTick,
   { st with cmds := st.cmds ++ [(c, v)], qTick := st.qTick + 1 })

/-- `InstrumentController.read_current`: a query without a source command. -/
def read_current (env : Env) (_c : Chan) (st : WState) : Option ℚ × WState :=
  (env.read st.qTick, { st with qTick := st.qTick + 1 })

/-- The `while self.is_paused:` busy-wait in the workers: poll `is_paused`;
while it is set, sleep 100ms and poll `is_measuring`, breaking out if it has
been cleared.  `fuel` bounds the number of iterations of the busy-wait; the
environments used in the theorems all terminate the loop within the fuel. -/
def pauseWait (env : Env) (fuel : ℕ) (st : WState) : WState :=
  match env.paused st.fTick, fuel with
  | false, _ => { st with fTick := st.fTick + 1 }
  | true, 0 => { st with fTick := st.fTick + 1 }
  | true, fuel + 1 =>
    match env.measuring (st.fTick + 1) with
    | true => pauseWait env fuel { st with fTick := st.fTick + 2 }
    | false => { st with fTick := st.fTick + 2 }

/-- `MeasurementController._set_voltage_gradually`, inner loop:
`for i in range(steps + 1): set_voltage_and_read(instrument, current + i*step)`
with `current = 0`; an exception aborts the loop (returned flag `false`). -/
def rampLoop (env : Env) (c : Chan) (target : ℚ) :
    List ℕ → WState → WState × Bool
  | [], st => (st, true)
  | i :: is, st =>
    match set_voltage_and_read env c ((i : ℚ) * target / 10) st with
    | (none, st1) => (st1, false)
    | (some _, st1) => rampLoop env c target is st1

/-- `MeasurementController._set_voltage_gradually`: the starting voltage is
hard-coded to 0 (`current_voltage = 0  # Assume starting from 0V`); when the
target differs from 0 it issues `steps + 1 = 11` commands at
`i * target/10` for `i = 0..10`, otherwise it issues nothing. -/
def set_voltage_gradually (env : Env) (c : Chan) (target : ℚ) (st : WState) :
    WState × Bool :=
  if target = 0 then (st, true)
  else rampLoop env c target (List.range 11) st

/-- The voltage commands `_set_voltage_gradually` issues for a given target. -/
def rampCmds (c : Chan) (target : ℚ) : List (Chan × ℚ) :=
  if target = 0 then []
  else (List.range 11).map (fun i : ℕ => (c, (i : ℚ) * target / 10))

/-- One point of the ID-VD inner loops (the `try` body at lines 286-304):
`ids = set_voltage_and_read('vds', vds)`, `ig = read_current('vg')`, put the
data event, append the CSV row, increment `current_point`; on an exception,
put one error event and signal the loop to break. -/
def idvdPoint (env : Env) (total vg v : ℚ) (st : WState) : WState × Bool :=
  match set_voltage_and_read env Chan.vds v st with
  | (none, st1) => ({ st1 with events := st1.events ++ [Event.error] }, false)
  | (some ids, st1) =>
    match read_current env Chan.vg st1 with
    | (none, st2) => ({ st2 with events := st2.events ++ [Event.error] }, false)
    | (some ig, st2) =>
      ({ st2 with
          events := st2.events ++
            [Event.data ⟨v, ids, ig, vg, (st2.point : ℚ) / total * 100⟩],
          rows := st2.rows ++ [(v, ids, ig)],
          point := st2.point + 1 }, true)

/-- An ID-VD inner sweep (forward or reverse): check `is_measuring` at the
top of each iteration, busy-wait while paused, then measure the point;
an error breaks out of this loop only. -/
def idvdInner (env : Env) (fuel : ℕ) (total vg : ℚ) :
    List ℚ → WState → WState
  | [], st => st
  | v :: vs, st =>
    match env.measuring st.fTick with
    | true =>
      match idvdPoint env total vg v
          (pauseWait env fuel { st with fTick := st.fTick + 1 }) with
      | (st2, true) => idvdInner env fuel total vg vs st2
      | (st2, false) => st2
    | false => { st with fTick := st.fTick + 1 }

/-- The body of the ID-VD outer loop for one gate value: ramp the gate,
sweep the drain forward then in reverse, and command the drain back to 0V.
An exception from the ramp or from the final command propagates to the
worker's outer handler (flag `false`: one error event, worker ends). -/
def idvdOuterBody (env : Env) (fuel : ℕ) (total : ℚ) (vds_vals : List ℚ)
    (vg : ℚ) (st : WState) : WState × Bool :=
  match set_voltage_gradually env Chan.vg vg st with
  | (st1, false) => ({ st1 with events := st1.events ++ [Event.error] }, false)
  | (st1, true) =>
    let st2 := idvdInner env fuel total vg vds_vals st1
    let st3 := idvdInner env fuel total vg vds_vals.reverse st2
    match set_voltage_and_read env Chan.vds 0 st3 with
    | (none, st4) => ({ st4 with events := st4.events ++ [Event.error] }, false)
    | (some _, st4) => (st4, true)

/-- The ID-VD outer loop over gate values, checking `is_measuring` at the top
of each iteration; a `break` still reaches the final `complete` put, while an
exception does not (flag `false`). -/
def idvdOuter (env : Env) (fuel : ℕ) (total : ℚ) (vds_vals : List ℚ) :
    List ℚ → WState → WState × Bool
  | [], st => (st, true)
  | vg :: rest, st =>
    match env.measuring st.fTick with
    | true =>
      match idvdOuterBody env fuel total vds_vals vg
          { st with fTick := st.fTick + 1 } with
      | (st1, true) => idvdOuter env fuel total vds_vals rest st1
      | (st1, false) => (st1, false)
    | false => ({ st with fTick := st.fTick + 1 }, true)

/-- `MeasurementController._idvd_measurement_worker`. -/
def idvd_measurement_worker (env : Env) (fuel : ℕ)
    (vg_from vg_to vg_step vds_from vds_to vds_step : ℚ)
    (st : WState) : WState :=
  let vg_vals := sweepValues vg_from vg_to vg_step
  let vds_vals := sweepValues vds_from vds_to vds_step
  let total : ℚ := ((vg_vals.length * vds_vals.length * 2 : ℕ) : ℚ)
  match idvdOuter env fuel total vds_vals vg_vals st with
  | (st1, true) => { st1 with events := st1.events ++ [Event.complete] }
  | (st1, false) => st1

/-- One point of the ID-VG inner loop (lines 382-404):
`ids = read_current('vds')` first, then `ig = set_voltage_and_read('vg', vg)`. -/
def idvgPoint (env : Env) (total vds v : ℚ) (st : WState) : WState × Bool :=
  match read_current env Chan.vds st with
  | (none, st1) => ({ st1 with events := st1.events ++ [Event.error] }, false)
  | (some ids, st1) =>
    match set_voltage_and_read env Chan.vg v st1 with
    | (none, st2) => ({ st2 with events := st2.events ++ [Event.error] }, false)
    | (some ig, st2) =>
      ({ st2 with
          events := st2.events ++
            [Event.data ⟨v, ids, ig, vds, (st2.point : ℚ) / total * 100⟩],
          rows := st2.rows ++ [(v, ids, ig)],
          point := st2.point + 1 }, true)

/-- The ID-VG inner sweep over gate values (forward only). -/
def idvgInner (env : Env) (fuel : ℕ) (total vds : ℚ) :
    List ℚ → WState → WState
  | [], st => st
  | v :: vs, st =>
    match env.measuring st.fTick with
    | true =>
      match idvgPoint env total vds v
          (pauseWait env fuel { st with fTick := st.fTick + 1 }) with
      | (st2, true) => idvgInner env fuel total vds vs st2
      | (st2, false) => st2
    | false => { st with fTick := st.fTick + 1 }

/-- The ID-VG outer loop over drain values: check `is_measuring`, ramp the
drain, sweep the gate forward. -/
def idvgOuter (env : Env) (fuel : ℕ) (total : ℚ) (vg_vals : List ℚ) :
    List ℚ → WState → WState × Bool
  | [], st => (st, true)
  | vds :: rest, st =>
    match env.measuring st.fTick with
    | true =>
      match set_voltage_gradually env Chan.vds vds
          { st with fTick := st.fTick + 1 } with
      | (st1, false) => ({ st1 with events := st1.events ++ [Event.error] }, false)
      | (st1, true) =>
        idvgOuter env fuel total vg_vals rest
          (idvgInner env fuel total vds vg_vals st1)
    | false => ({ st with fTick := st.fTick + 1 }, true)

/-- `MeasurementController._idvg_measurement_worker`. -/
def idvg_measurement_worker (env : Env) (fuel : ℕ)
    (vds_from vds_to vds_step vg_from vg_to vg_step : ℚ)
    (st : WState) : WState :=
  let vds_vals := sweepValues vds_from vds_to vds_step
  let vg_vals := sweepValues vg_from vg_to vg_step
  let total : ℚ := ((vds_vals.length * vg_vals.length : ℕ) : ℚ)
  match idvgOuter env fuel total vg_vals vds_vals st with
  | (st1, true) => { st1 with events := st1.events ++ [Event.complete] }
  | (st1, false) => st1

/-- An environment with no pause, no stop, and every query answered. -/
def niceEnv (f : ℕ → ℚ) : Env :=
  ⟨fun n => some (f n), fun _ => true, fun _ => false⟩

/-- An environment in which the instrument raises on the 9th query (index 8)
and answers 7.0 otherwise, with no pause or stop.  For an ID-VG run whose
first drain value is 0 (so the initial ramp is skipped), query index 8 is the
first read of the 5th measurement point. -/
def failEnv : Env :=
  ⟨fun n => if n = 8 then none else some 7, fun _ => true, fun _ => false⟩

/-- An environment describing a stop request that arrives while the engine is
paused: the pause flag reads true at flag observation 2, and from observation
3 on both flags read false (`stop_measurement` clears `is_measuring` and
`is_paused`). -/
def stopEnv : Env :=
  ⟨fun _ => some 7, fun t => decide (t < 3), fun t => decide (t = 2)⟩

/-- The two measurement types of `DataManager.initialize_csv`. -/
inductive MType
  | IDVD
  | IDVG
deriving DecidableEq, Repr

/-- The CSV header row chosen by `initialize_csv` for each measurement type. -/
def headerFor : MType → List String
  | MType.IDVD => ["VD (V)", "IDS (A)", "IG (A)"]
  | MType.IDVG => ["VG (V)", "IDS (A)", "IG (A)"]

/-- The CSV file name `initialize_csv` computes from the user's filename. -/
def csvName (filename : String) : MType → String
  | MType.IDVD => filename ++ "-IDVD.csv"
  | MType.IDVG => filename ++ "-IDVG.csv"

/-- A CSV file as `DataManager` sees it: a header row and the data rows. -/
structure CsvFile where
  header : List String
  rows : List (List ℚ)
deriving DecidableEq

/-- `DataManager.initialize_csv`, acting on the (possibly absent) file at the
computed target path: if no file exists there, write the header row and no
data rows; if one exists, leave it untouched (no truncation, no new header). -/
def init_csv (existing : Option CsvFile) (t : MType) : CsvFile :=
  match existing with
  | none => { header := headerFor t, rows := [] }
  | some file => file

/-- `DataManager.append_data`: read the whole CSV, concatenate the one new
row (special-casing the empty frame), and write the result back. -/
def append_data (file : CsvFile) (data_row : List ℚ) : CsvFile :=
  if file.rows.length = 0 then { header := file.header, rows := [data_row] }
  else { header := file.header, rows := file.rows ++ [data_row] }

/-- One recorded sweep loop of the original script
`FET_IDVG_2T_Keithley2450.py` (lines 160-194 and 196-230): for each gate
value, command it, read `response_Ig` (query `q`), read `response_Ids`
(query `q+1`), and append the row `[vg, ids, ig]`. -/
def scriptSweepRows (f : ℕ → ℚ) : List ℚ → ℕ → List (ℚ × ℚ × ℚ)
  | [], _ => []
  | k :: ks, q => (k, f (q + 1), f q) :: scriptSweepRows f ks (q + 2)

/-- The rows the original ID-VG script records during one drain hold:
the gate is swept forward over `vgs_sweep_for` and then in reverse over
`reversed(vgs_sweep_for)`, recording a row at every step of both passes. -/
def scriptIdvgHoldRows (f : ℕ → ℚ) (vg_from vg_to vg_step : ℚ) (q : ℕ) :
    List (ℚ × ℚ × ℚ) :=
  scriptSweepRows f (sweepValues vg_from vg_to vg_step) q
    ++ scriptSweepRows f (sweepValues vg_from vg_to vg_step).reverse
        (q + 2 * (sweepValues vg_from vg_to vg_step).length)

/-- The progress value carried by a data event. -/
def progOf : Event → Option ℚ
  | Event.data p => some p.progress
  | _ => none

/-- The swept value carried by a data event. -/
def sweptOf : Event → Option ℚ
  | Event.data p => some p.swept
  | _ => none

/-- The CSV row corresponding to a data event. -/
def rowOf : Event → Option (ℚ × ℚ × ℚ)
  | Event.data p => some (p.swept, p.ids, p.ig)
  | _ => none

/-- The progress values of the data events of an event list, in order. -/
def progList (es : List Event) : List ℚ :=
  es.filterMap progOf

/-- The swept values of the data events of an event list, in order. -/
def sweptList (es : List Event) : List ℚ :=
  es.filterMap sweptOf

/-- The rows corresponding to the data events of an event list, in order. -/
def rowsOf (es : List Event) : List (ℚ × ℚ × ℚ) :=
  es.filterMap rowOf

/-- Number of error events in an event list. -/
def errorCount (es : List Event) : ℕ :=
  es.count Event.error

/-- The data events an uninterrupted, error-free inner sweep produces:
one per swept value, reading the instrument responses `f q, f (q+1), …`
and carrying progress `p/total*100, (p+1)/total*100, …`. -/
def sweepTrace (f : ℕ → ℚ) (total fixed : ℚ) : List ℚ → ℕ → ℕ → List Event
  | [], _, _ => []
  | v :: vs, q, p =>
    Event.data ⟨v, f q, f (q + 1), fixed, (p : ℚ) / total * 100⟩ ::
      sweepTrace f total fixed vs (q + 2) (p + 1)

lemma sweptList_append (a b : List Event) :
    sweptList (a ++ b) = sweptList a ++ sweptList b :=
  List.filterMap_append a b sweptOf

lemma progList_append (a b : List Event) :
    progList (a ++ b) = progList a ++ progList b :=
  List.filterMap_append a b progOf

lemma rowsOf_append (a b : List Event) :
    rowsOf (a ++ b) = rowsOf a ++ rowsOf b :=
  List.filterMap_append a b rowOf

lemma sweptList_cons_data (p : DataPoint) (es : List Event) :
    sweptList (Event.data p :: es) = p.swept :: sweptList es := by
  simp [sweptList, sweptOf]

lemma progList_cons_data (p : DataPoint) (es : List Event) :
    progList (Event.data p :: es) = p.progress :: progList es := by
  simp [progList, progOf]

lemma rowsOf_cons_data (p : DataPoint) (es : List Event) :
    rowsOf (Event.data p :: es) = (p.swept, p.ids, p.ig) :: rowsOf es := by
  simp [rowsOf, rowOf]

lemma sweptList_trace (f : ℕ → ℚ) (total fixed : ℚ) (vals : List ℚ) :
    ∀ q p, sweptList (sweepTrace f total fixed vals q p) = vals := by
  induction vals with
  | nil => intro q p; rfl
  | cons v vs ih =>
    intro q p
    rw [sweepTrace, sweptList_cons_data, ih (q + 2) (p + 1)]

lemma progList_trace (f : ℕ → ℚ) (total fixed : ℚ) (vals : List ℚ) :
    ∀ q p, progList (sweepTrace f total fixed vals q p)
      = (List.range vals.length).map (fun i : ℕ => ((p + i : ℕ) : ℚ) / total * 100) := by
  induction vals with
  | nil => intro q p; rfl
  | cons v vs ih =>
    intro q p
    rw [sweepTrace, progList_cons_data, ih (q + 2) (p + 1)]
    simp only [List.length_cons, List.range_succ_eq_map, List.map_cons, List.map_map]
    refine congrArg₂ (· :: ·) (by norm_num) ?_
    refine List.map_congr_left fun i _ => ?_
    have h : p + 1 + i = p + (i + 1) := by omega
    simp [Function.comp, h, Nat.succ_eq_add_one]

lemma rowsOf_trace_length (f : ℕ → ℚ) (total fixed : ℚ) (vals : List ℚ) :
    ∀ q p, (rowsOf (sweepTrace f total fixed vals q p)).length = vals.length := by
  induction vals with
  | nil => intro q p; rfl
  | cons v vs ih =>
    intro q p
    rw [sweepTrace, rowsOf_cons_data]
    simp only [List.length_cons, ih (q + 2) (p + 1)]

lemma measuring_nice (f : ℕ → ℚ) (t : ℕ) : (niceEnv f).measuring t = true :=
  rfl

lemma paused_nice (f : ℕ → ℚ) (t : ℕ) : (niceEnv f).paused t = false :=
  rfl

lemma read_nice (f : ℕ → ℚ) (n : ℕ) : (niceEnv f).read n = some (f n) :=
  rfl

lemma pauseWait_nice (f : ℕ → ℚ) (fuel : ℕ) (st : WState) :
    pauseWait (niceEnv f) fuel st = { st with fTick := st.fTick + 1 } := by
  cases fuel
  all_goals simp [pauseWait, paused_nice]

lemma set_voltage_and_read_nice (f : ℕ → ℚ) (c : Chan) (v : ℚ) (st : WState) :
    set_voltage_and_read (niceEnv f) c v st =
      (some (f st.qTick),
       { st with cmds := st.cmds ++ [(c, v)], qTick := st.qTick + 1 }) :=
  rfl

lemma read_current_nice (f : ℕ → ℚ) (c : Chan) (st : WState) :
    read_current (niceEnv f) c st =
      (some (f st.qTick), { st with qTick := st.qTick + 1 }) :=
  rfl

lemma idvdPoint_nice (f : ℕ → ℚ) (total vg v : ℚ) (st : WState) :
    idvdPoint (niceEnv f) total vg v st =
      ({ qTick := st.qTick + 1 + 1, fTick := st.fTick,
         events := st.events ++
           [Event.data ⟨v, f st.qTick, f (st.qTick + 1), vg,
             (st.point : ℚ) / total * 100⟩],
         rows := st.rows ++ [(v, f st.qTick, f (st.qTick + 1))],
         cmds := st.cmds ++ [(Chan.vds, v)],
         point := st.point + 1 }, true) := by
  simp [idvdPoint, set_voltage_and_read_nice, read_current_nice]

lemma idvgPoint_nice (f : ℕ → ℚ) (total vds v : ℚ) (st : WState) :
    idvgPoint (niceEnv f) total vds v st =
      ({ qTick := st.qTick + 1 + 1, fTick := st.fTick,
         events := st.events ++
           [Event.data ⟨v, f st.qTick, f (st.qTick + 1), vds,
             (st.point : ℚ) / total * 100⟩],
         rows := st.rows ++ [(v, f st.qTick, f (st.qTick + 1))],
         cmds := st.cmds ++ [(Chan.vg, v)],
         point := st.point + 1 }, true) := by
  simp [idvgPoint, set_voltage_and_read_nice, read_current_nice]

lemma idvdInner_nice (f : ℕ → ℚ) (fuel : ℕ) (total vg : ℚ) (vals : List ℚ) :
    ∀ st : WState,
    idvdInner (niceEnv f) fuel total vg vals st =
      { qTick := st.qTick + 2 * vals.length,
        fTick := st.fTick + 2 * vals.length,
        events := st.events ++ sweepTrace f total vg vals st.qTick st.point,
        rows := st.rows ++ rowsOf (sweepTrace f total vg vals st.qTick st.point),
        cmds := st.cmds ++ vals.map (fun v => (Chan.vds, v)),
        point := st.point + vals.length } := by
  induction vals with
  | nil => intro st; simp [idvdInner, sweepTrace, rowsOf]
  | cons v vs ih =>
    intro st
    simp only [idvdInner, measuring_nice, pauseWait_nice, idvdPoint_nice]
    rw [ih]
    ext <;>
      simp [sweepTrace, rowsOf_cons_data, List.append_assoc] <;> omega

lemma idvgInner_nice (f : ℕ → ℚ) (fuel : ℕ) (total vds : ℚ) (vals : List ℚ) :
    ∀ st : WState,
    idvgInner (niceEnv f) fuel total vds vals st =
      { qTick := st.qTick + 2 * vals.length,
        fTick := st.fTick + 2 * vals.length,
        events := st.events ++ sweepTrace f total vds vals st.qTick st.point,
        rows := st.rows ++ rowsOf (sweepTrace f total vds vals st.qTick st.point),
        cmds := st.cmds ++ vals.map (fun v => (Chan.vg, v)),
        point := st.point + vals.length } := by
  induction vals with
  | nil => intro st; simp [idvgInner, sweepTrace, rowsOf]
  | cons v vs ih =>
    intro st
    simp only [idvgInner, measuring_nice, pauseWait_nice, idvgPoint_nice]
    rw [ih]
    ext <;>
      simp [sweepTrace, rowsOf_cons_data, List.append_assoc] <;> omega

lemma rampLoop_nice (f : ℕ → ℚ) (c : Chan) (target : ℚ) (l : List ℕ) :
    ∀ st : WState,
    rampLoop (niceEnv f) c target l st =
      ({ st with cmds := st.cmds ++ l.map (fun i : ℕ => (c, (i : ℚ) * target / 10)),
                 qTick := st.qTick + l.length }, true) := by
  induction l with
  | nil => intro st; simp [rampLoop]
  | cons i is ih =>
    intro st
    simp only [rampLoop, set_voltage_and_read_nice]
    rw [ih]
    refine congrArg (·, true) ?_
    ext
    all_goals simp [List.append_assoc]
    all_goals omega

lemma set_voltage_gradually_nice (f : ℕ → ℚ) (c : Chan) (target : ℚ)
    (st : WState) :
    set_voltage_gradually (niceEnv f) c target st =
      ({ st with cmds := st.cmds ++ rampCmds c target,
                 qTick := st.qTick + (rampCmds c target).length }, true) := by
  by_cases h : target = 0
  · simp [set_voltage_gradually, rampCmds, h]
  · rw [set_voltage_gradually, if_neg h, rampLoop_nice, rampCmds, if_neg h]
    simp

lemma range_map_shift (total : ℚ) (p a b : ℕ) :
    (List.range a).map (fun k : ℕ => ((p + k : ℕ) : ℚ) / total * 100)
      ++ (List.range b).map (fun k : ℕ => ((p + a + k : ℕ) : ℚ) / total * 100)
    = (List.range (a + b)).map (fun k : ℕ => ((p + k : ℕ) : ℚ) / total * 100) := by
  rw [List.range_add, List.map_append, List.map_map]
  congr 1
  refine List.map_congr_left fun i _ => ?_
  have h : p + (a + i) = p + a + i := by omega
  simp [Function.comp, h]

lemma idvdOuterBody_nice (f : ℕ → ℚ) (fuel : ℕ) (total : ℚ) (vds_vals : List ℚ)
    (vg : ℚ) (st : WState) :
    idvdOuterBody (niceEnv f) fuel total vds_vals vg st =
      ({ qTick := st.qTick + (rampCmds Chan.vg vg).length
           + 2 * vds_vals.length + 2 * vds_vals.length + 1,
         fTick := st.fTick + 2 * vds_vals.length + 2 * vds_vals.length,
         events := st.events
           ++ sweepTrace f total vg vds_vals
                (st.qTick + (rampCmds Chan.vg vg).length) st.point
           ++ sweepTrace f total vg vds_vals.reverse
                (st.qTick + (rampCmds Chan.vg vg).length + 2 * vds_vals.length)
                (st.point + vds_vals.length),
         rows := st.rows
           ++ rowsOf (sweepTrace f total vg vds_vals
                (st.qTick + (rampCmds Chan.vg vg).length) st.point)
           ++ rowsOf (sweepTrace f total vg vds_vals.reverse
                (st.qTick + (rampCmds Chan.vg vg).length + 2 * vds_vals.length)
                (st.point + vds_vals.length)),
         cmds := st.cmds ++ rampCmds Chan.vg vg
           ++ vds_vals.map (fun v => (Chan.vds, v))
           ++ vds_vals.reverse.map (fun v => (Chan.vds, v))
           ++ [(Chan.vds, 0)],
         point := st.point + vds_vals.length + vds_vals.length }, true) := by
  simp only [idvdOuterBody, set_voltage_gradually_nice, idvdInner_nice,
    set_voltage_and_read_nice]
  refine congrArg (·, true) ?_
  ext <;> simp [List.length_reverse]

lemma idvdOuter_nice_proj (f : ℕ → ℚ) (fuel : ℕ) (total : ℚ)
    (vds_vals : List ℚ) (vgs : List ℚ) :
    ∀ st : WState,
    (idvdOuter (niceEnv f) fuel total vds_vals vgs st).2 = true ∧
    (idvdOuter (niceEnv f) fuel total vds_vals vgs st).1.point
      = st.point + vgs.length * (2 * vds_vals.length) ∧
    progList (idvdOuter (niceEnv f) fuel total vds_vals vgs st).1.events
      = progList st.events ++
          (List.range (vgs.length * (2 * vds_vals.length))).map
            (fun k : ℕ => ((st.point + k : ℕ) : ℚ) / total * 100) := by
  induction vgs with
  | nil => intro st; simp [idvdOuter]
  | cons vg rest ih =>
    intro st
    simp only [idvdOuter, measuring_nice, idvdOuterBody_nice]
    obtain ⟨h2, hpt, hprog⟩ := ih
      { qTick := st.qTick + (rampCmds Chan.vg vg).length
          + 2 * vds_vals.length + 2 * vds_vals.length + 1,
        fTick := (st.fTick + 1) + 2 * vds_vals.length + 2 * vds_vals.length,
        events := st.events
          ++ sweepTrace f total vg vds_vals
               (st.qTick + (rampCmds Chan.vg vg).length) st.point
          ++ sweepTrace f total vg vds_vals.reverse
               (st.qTick + (rampCmds Chan.vg vg).length + 2 * vds_vals.length)
               (st.point + vds_vals.length),
        rows := st.rows
          ++ rowsOf (sweepTrace f total vg vds_vals
               (st.qTick + (rampCmds Chan.vg vg).length) st.point)
          ++ rowsOf (sweepTrace f total vg vds_vals.reverse
               (st.qTick + (rampCmds Chan.vg vg).length + 2 * vds_vals.length)
               (st.point + vds_vals.length)),
        cmds := st.cmds ++ rampCmds Chan.vg vg
          ++ vds_vals.map (fun v => (Chan.vds, v))
          ++ vds_vals.reverse.map (fun v => (Chan.vds, v))
          ++ [(Chan.vds, 0)],
        point := st.point + vds_vals.length + vds_vals.length }
    refine ⟨h2, ?_, ?_⟩
    · rw [hpt]
      simp only [List.length_cons]
      ring
    · rw [hprog]
      simp only [progList_append, progList_trace, List.length_reverse,
        List.length_cons, List.append_assoc]
      congr 1
      rw [range_map_shift total (st.point + vds_vals.length) vds_vals.length
            (rest.length * (2 * vds_vals.length)),
          range_map_shift total st.point vds_vals.length
            (vds_vals.length + rest.length * (2 * vds_vals.length))]
      have h : vds_vals.length + (vds_vals.length
          + rest.length * (2 * vds_vals.length))
          = (rest.length + 1) * (2 * vds_vals.length) := by ring
      rw [h]

lemma pyInt_eq_floor (q : ℚ) (hq : 0 ≤ q) : pyInt q = ⌊q⌋ := by
  rw [pyInt, Rat.floor_def]
  exact Int.tdiv_eq_ediv (Rat.num_nonneg.mpr hq) (Int.natCast_nonneg _)

lemma pyInt_zero : pyInt 0 = 0 := by
  with_unfolding_all rfl

lemma linspace_length (a b : ℚ) (n : ℕ) : (linspace a b n).length = n := by
  unfold linspace
  by_cases h : n ≤ 1 <;> simp [h]

lemma sweepValues_length (lo hi step : ℚ) :
    (sweepValues lo hi step).length = (pointCount lo hi step).toNat :=
  linspace_length _ _ _

-- Sanity checks on the embedding.
example : sweepValues 0 6 1 = [0, 1, 2, 3, 4, 5, 6] := by with_unfolding_all rfl
example : sweepValues (-1) 1 (1/2) = [-1, -1/2, 0, 1/2, 1] := by
  with_unfolding_all rfl
example : sweepValues 0 0 1 = [0] := by with_unfolding_all rfl
example : pointCount 1 0 2 = 1 := by with_unfolding_all rfl
example :
    (set_voltage_gradually (niceEnv fun _ => 7) Chan.vds 10 initState).1.cmds
      = (List.range 11).map (fun i => (Chan.vds, (i : ℚ))) := by
  with_unfolding_all rfl

/-- C2 counterexample: the claim says rampTo(0, 10) issues exactly 10
intermediate commands at voltages 1..10, and that a no-op ramp still issues
one confirmation command.  The code's `_set_voltage_gradually` issues 11
commands, at 0, 1, ..., 10 (the `for i in range(steps + 1)` loop includes a
command at the hard-coded starting voltage 0), and when the target equals the
assumed current voltage (0) it issues no command at all. -/
theorem C2_counterexample :
    (set_voltage_gradually (niceEnv fun _ => 7) Chan.vds 10 initState).1.cmds
      = [(Chan.vds, 0), (Chan.vds, 1), (Chan.vds, 2), (Chan.vds, 3),
         (Chan.vds, 4), (Chan.vds, 5), (Chan.vds, 6), (Chan.vds, 7),
         (Chan.vds, 8), (Chan.vds, 9), (Chan.vds, 10)] ∧
    (set_voltage_gradually (niceEnv fun _ => 7) Chan.vds 10 initState).1.cmds.length
      ≠ 10 ∧
    (set_voltage_gradually (niceEnv fun _ => 7) Chan.vds 0 initState).1.cmds
      = [] ∧
    (set_voltage_gradually (niceEnv fun _ => 7) Chan.vds 0 initState).1.cmds.length
      ≠ 1 := by
  refine ⟨?_, ?_, ?_, ?_⟩
  · with_unfolding_all rfl
  · with_unfolding_all decide
  · with_unfolding_all rfl
  · with_unfolding_all decide

/-- C2 (amended): for every ramp request that completes without an
instrument error, `_set_voltage_gradually` divides [0, target] (the starting
voltage is always taken to be 0) into 10 equal sub-steps but issues 11
`set_voltage_and_read` commands, at `i * target/10` for `i = 0..10` — the
first at the assumed starting voltage 0 and the last at the target; when
`target = 0` it issues no command at all. -/
theorem C2_ramp_commands (f : ℕ → ℚ) (c : Chan) (target : ℚ) (st : WState) :
    set_voltage_gradually (niceEnv f) c target st =
      ({ st with cmds := st.cmds ++ rampCmds c target,
                 qTick := st.qTick + (rampCmds c target).length }, true) ∧
    (rampCmds c target).length = (if target = 0 then 0 else 11) ∧
    (rampCmds c target).head? = (if target = 0 then none else some (c, 0)) ∧
    (rampCmds c target).getLast?
      = (if target = 0 then none else some (c, target)) := by
  have hr : List.range 11 = [0, 1, 2, 3, 4, 5, 6, 7, 8, 9, 10] := by decide
  refine ⟨set_voltage_gradually_nice f c target st, ?_, ?_, ?_⟩
  · by_cases h : target = 0 <;> simp [rampCmds, h]
  · by_cases h : target = 0
    · simp [rampCmds, h]
    · simp [rampCmds, h, hr]
  · by_cases h : target = 0
    · simp [rampCmds, h]
    · have h11 : List.range 11 = List.range 10 ++ [10] := by decide
      rw [rampCmds, if_neg h, if_neg h, h11, List.map_append, List.map_singleton,
        List.getLast?_concat]
      norm_num

/-- C3 counterexample: in an ID-VG run with drain values [2, 4] and a single
gate value, the command stream is: first ramp (indices 0-10, ending with the
drain at 2V), one gate command (index 11), then the second ramp.  The second
ramp's first command (index 12) sets the drain to 0V, although the voltage
most recently commanded on the drain channel was 2V — the ramp does not
start from the tracked last commanded voltage. -/
theorem C3_counterexample :
    (idvg_measurement_worker (niceEnv fun _ => 7) 0 2 4 2 1 1 1 initState).cmds.get? 10
      = some (Chan.vds, 2) ∧
    (idvg_measurement_worker (niceEnv fun _ => 7) 0 2 4 2 1 1 1 initState).cmds.get? 11
      = some (Chan.vg, 1) ∧
    (idvg_measurement_worker (niceEnv fun _ => 7) 0 2 4 2 1 1 1 initState).cmds.get? 12
      = some (Chan.vds, 0) := by
  have hv : sweepValues 2 4 2 = [2, 4] := by with_unfolding_all rfl
  have hg : sweepValues 1 1 1 = [1] := by with_unfolding_all rfl
  have hr : List.range 11 = [0, 1, 2, 3, 4, 5, 6, 7, 8, 9, 10] := by decide
  refine ⟨?_, ?_, ?_⟩ <;>
    norm_num [idvg_measurement_worker, hv, hg, hr, idvgOuter, idvgInner,
      idvgPoint, set_voltage_gradually, rampLoop, set_voltage_and_read,
      read_current, pauseWait, niceEnv, initState]

/-- C3 (amended): no last-commanded voltage is tracked.  The command
sequence a ramp appends depends only on the channel and the target (never on
the history of commands already issued), and for a non-trivial target its
first command is at the hard-coded starting voltage 0. -/
theorem C3_ramp_ignores_history (f : ℕ → ℚ) (c : Chan) (target : ℚ)
    (st st' : WState) (h : target ≠ 0) :
    (set_voltage_gradually (niceEnv f) c target st).1.cmds.drop st.cmds.length
      = (set_voltage_gradually (niceEnv f) c target st').1.cmds.drop st'.cmds.length ∧
    ((set_voltage_gradually (niceEnv f) c target st).1.cmds.drop
        st.cmds.length).head? = some (c, 0) := by
  have hr : List.range 11 = [0, 1, 2, 3, 4, 5, 6, 7, 8, 9, 10] := by decide
  rw [set_voltage_gradually_nice, set_voltage_gradually_nice]
  refine ⟨?_, ?_⟩
  · simp [List.drop_left]
  · simp only [List.drop_left]
    simp [rampCmds, h, hr]

/-- Witness for C3_ramp_ignores_history at target 10, with two different
command histories. -/
theorem C3_ramp_ignores_history_witness :
    ((set_voltage_gradually (niceEnv fun _ => 7) Chan.vds 10 initState).1.cmds.drop
        initState.cmds.length
      = (set_voltage_gradually (niceEnv fun _ => 7) Chan.vds 10
          { initState with cmds := [(Chan.vg, 3)] }).1.cmds.drop
          [(Chan.vg, 3)].length) ∧
    ((set_voltage_gradually (niceEnv fun _ => 7) Chan.vds 10 initState).1.cmds.drop
        initState.cmds.length).head? = some (Chan.vds, 0) :=
  C3_ramp_ignores_history (fun _ => 7) Chan.vds 10 initState
    { initState with cmds := [(Chan.vg, 3)] } (by norm_num)

/-- C4: within one gate-hold iteration of the ID-VD worker, the emitted
swept drain values are exactly the forward range followed by the reversed
forward range (endpoints included in both, so the shared endpoints appear
twice), and after both directions the drain is commanded back to 0V (the
iteration's final command) before the engine advances to the next gate
value. -/
theorem C4_idvd_forward_reverse_then_zero (f : ℕ → ℚ) (fuel : ℕ)
    (total vds_from vds_to vds_step vg : ℚ) (st : WState) :
    sweptList (idvdOuterBody (niceEnv f) fuel total
        (sweepValues vds_from vds_to vds_step) vg st).1.events
      = sweptList st.events
        ++ (sweepValues vds_from vds_to vds_step
            ++ (sweepValues vds_from vds_to vds_step).reverse) ∧
    (idvdOuterBody (niceEnv f) fuel total
        (sweepValues vds_from vds_to vds_step) vg st).1.cmds
      = st.cmds ++ rampCmds Chan.vg vg
        ++ (sweepValues vds_from vds_to vds_step).map (fun v => (Chan.vds, v))
        ++ (sweepValues vds_from vds_to vds_step).reverse.map
            (fun v => (Chan.vds, v))
        ++ [(Chan.vds, 0)] ∧
    (idvdOuterBody (niceEnv f) fuel total
        (sweepValues vds_from vds_to vds_step) vg st).2 = true := by
  rw [idvdOuterBody_nice]
  refine ⟨?_, rfl, rfl⟩
  simp [sweptList_append, sweptList_trace, List.append_assoc]

/-- C5 counterexample: the claim quantifies over all SweepSpecs with
`step > 0` and asserts `pointCount = floor((to-from)/step) + 1`.  For
`from = 1, to = 0, step = 2` (step > 0), the code computes
`int(-0.5) + 1 = 1` (Python `int()` truncates toward zero), while the
claimed floor formula gives `-1 + 1 = 0`. -/
theorem C5_counterexample :
    (0 : ℚ) < 2 ∧
    pointCount 1 0 2 = 1 ∧
    ⌊((0 : ℚ) - 1) / 2⌋ + 1 = 0 ∧
    pointCount 1 0 2 ≠ ⌊((0 : ℚ) - 1) / 2⌋ + 1 := by
  refine ⟨by norm_num, by with_unfolding_all rfl, ?_, ?_⟩
  · norm_num
  · have h1 : pointCount 1 0 2 = 1 := by with_unfolding_all rfl
    have h2 : ⌊((0 : ℚ) - 1) / 2⌋ + 1 = 0 := by norm_num
    omega

/-- C5 (amended): for a SweepSpec with `step > 0` and `from ≤ to`, the
per-axis point count computed by the workers equals
`floor((to-from)/step) + 1` (and equals 1 when `to = from`), the swept value
list has exactly that many entries, and per outer iteration an uninterrupted
error-free run emits exactly that many points twice (forward and reverse)
for ID-VD, and exactly once for ID-VG. -/
theorem C5_point_counts (f : ℕ → ℚ) (fuel : ℕ)
    (total lo hi step vg vds : ℚ) (st st' : WState)
    (h1 : 0 < step) (h2 : lo ≤ hi) :
    pointCount lo hi step = ⌊(hi - lo) / step⌋ + 1 ∧
    (lo = hi → pointCount lo hi step = 1) ∧
    (sweepValues lo hi step).length = (pointCount lo hi step).toNat ∧
    (sweptList (idvdOuterBody (niceEnv f) fuel total
        (sweepValues lo hi step) vg st).1.events).length
      = (sweptList st.events).length + 2 * (sweepValues lo hi step).length ∧
    (sweptList (idvgInner (niceEnv f) fuel total vds
        (sweepValues lo hi step) st').events).length
      = (sweptList st'.events).length + (sweepValues lo hi step).length := by
  refine ⟨?_, ?_, sweepValues_length lo hi step, ?_, ?_⟩
  · rw [pointCount, pyInt_eq_floor]
    exact div_nonneg (by linarith) h1.le
  · intro he
    subst he
    rw [pointCount]
    simp [pyInt_zero]
  · rw [idvdOuterBody_nice]
    simp [sweptList_append, sweptList_trace, List.length_append]
    omega
  · rw [idvgInner_nice]
    simp [sweptList_append, sweptList_trace, List.length_append]

/-- Witness for C5_point_counts at the spec `0 → 2 step 1`. -/
theorem C5_point_counts_witness :
    (0 : ℚ) < 1 ∧ (0 : ℚ) ≤ 2 ∧
    (pointCount 0 2 1 = ⌊((2 : ℚ) - 0) / 1⌋ + 1 ∧
     ((0 : ℚ) = 2 → pointCount 0 2 1 = 1) ∧
     (sweepValues 0 2 1).length = (pointCount 0 2 1).toNat ∧
     (sweptList (idvdOuterBody (niceEnv fun _ => 7) 0 12
         (sweepValues 0 2 1) 5 initState).1.events).length
       = (sweptList initState.events).length + 2 * (sweepValues 0 2 1).length ∧
     (sweptList (idvgInner (niceEnv fun _ => 7) 0 12 5
         (sweepValues 0 2 1) initState).events).length
       = (sweptList initState.events).length + (sweepValues 0 2 1).length) :=
  ⟨by norm_num, by norm_num,
   C5_point_counts (fun _ => 7) 0 12 0 2 1 5 5 initState initState
     (by norm_num) (by norm_num)⟩

lemma idvd_worker_nice_progList (f : ℕ → ℚ) (fuel : ℕ)
    (vgF vgT vgS vdF vdT vdS : ℚ) :
    progList (idvd_measurement_worker (niceEnv f) fuel vgF vgT vgS vdF vdT vdS
        initState).events
      = (List.range ((sweepValues vgF vgT vgS).length
          * (2 * (sweepValues vdF vdT vdS).length))).map
          (fun k : ℕ => (k : ℚ)
            / (((sweepValues vgF vgT vgS).length
                * (sweepValues vdF vdT vdS).length * 2 : ℕ) : ℚ) * 100) := by
  have hproj := idvdOuter_nice_proj f fuel
      (((sweepValues vgF vgT vgS).length
        * (sweepValues vdF vdT vdS).length * 2 : ℕ) : ℚ)
      (sweepValues vdF vdT vdS) (sweepValues vgF vgT vgS) initState
  rcases hX : idvdOuter (niceEnv f) fuel
      (((sweepValues vgF vgT vgS).length
        * (sweepValues vdF vdT vdS).length * 2 : ℕ) : ℚ)
      (sweepValues vdF vdT vdS) (sweepValues vgF vgT vgS) initState with ⟨st1, b⟩
  rw [hX] at hproj
  obtain ⟨hb, hpt, hprog⟩ := hproj
  simp only at hb
  subst hb
  simp only [idvd_measurement_worker]
  rw [hX]
  simp only
  rw [progList_append]
  have hc : progList [Event.complete] = [] := rfl
  rw [hc, List.append_nil, hprog]
  simp only [initState, progList, List.filterMap_nil, List.nil_append,
    Nat.zero_add]

/-- C6 (amended): within one uninterrupted error-free ID-VD run, the
progress values carried by consecutive data events are
`k / totalPointsPlanned * 100` for `k = 0, 1, 2, ...` — that is, the count
of points emitted *before* the current one, not including it, divided by
outer-count x inner-count x 2.  The sequence is non-decreasing, but every
value is strictly below 100: progress never reaches 100, not even at the
final point of a successful run. -/
theorem C6_progress_monotone (f : ℕ → ℚ) (fuel : ℕ)
    (vgF vgT vgS vdF vdT vdS : ℚ) :
    progList (idvd_measurement_worker (niceEnv f) fuel vgF vgT vgS vdF vdT vdS
        initState).events
      = (List.range ((sweepValues vgF vgT vgS).length
          * (2 * (sweepValues vdF vdT vdS).length))).map
          (fun k : ℕ => (k : ℚ)
            / (((sweepValues vgF vgT vgS).length
                * (sweepValues vdF vdT vdS).length * 2 : ℕ) : ℚ) * 100) ∧
    (progList (idvd_measurement_worker (niceEnv f) fuel vgF vgT vgS vdF vdT vdS
        initState).events).Pairwise (· ≤ ·) ∧
    ∀ p ∈ progList (idvd_measurement_worker (niceEnv f) fuel vgF vgT vgS
        vdF vdT vdS initState).events, p < 100 := by
  have h1 := idvd_worker_nice_progList f fuel vgF vgT vgS vdF vdT vdS
  refine ⟨h1, ?_, ?_⟩
  · rw [h1]
    refine List.pairwise_map.mpr ?_
    refine (List.pairwise_lt_range _).imp ?_
    intro a b hab
    by_cases hT : (((sweepValues vgF vgT vgS).length
        * (sweepValues vdF vdT vdS).length * 2 : ℕ) : ℚ) = 0
    · simp [hT]
    · have hT' : (0 : ℚ) < (((sweepValues vgF vgT vgS).length
          * (sweepValues vdF vdT vdS).length * 2 : ℕ) : ℚ) :=
        lt_of_le_of_ne (Nat.cast_nonneg _) (Ne.symm hT)
      have hab' : (a : ℚ) ≤ (b : ℚ) := by exact_mod_cast hab.le
      exact mul_le_mul_of_nonneg_right ((div_le_div_iff_of_pos_right hT').mpr hab')
        (by norm_num)
  · intro p hp
    rw [h1] at hp
    obtain ⟨k, hk, rfl⟩ := List.mem_map.mp hp
    have hkM : k < (sweepValues vgF vgT vgS).length
        * (2 * (sweepValues vdF vdT vdS).length) := List.mem_range.mp hk
    have hMN : (sweepValues vgF vgT vgS).length
        * (2 * (sweepValues vdF vdT vdS).length)
        = (sweepValues vgF vgT vgS).length
          * (sweepValues vdF vdT vdS).length * 2 := by ring
    have hkN : k < (sweepValues vgF vgT vgS).length
        * (sweepValues vdF vdT vdS).length * 2 := hMN ▸ hkM
    have hT : (0 : ℚ) < (((sweepValues vgF vgT vgS).length
        * (sweepValues vdF vdT vdS).length * 2 : ℕ) : ℚ) := by
      have : 0 < (sweepValues vgF vgT vgS).length
          * (sweepValues vdF vdT vdS).length * 2 := by omega
      exact_mod_cast this
    have hkT : (k : ℚ) < (((sweepValues vgF vgT vgS).length
        * (sweepValues vdF vdT vdS).length * 2 : ℕ) : ℚ) := by
      exact_mod_cast hkN
    calc (k : ℚ) / (((sweepValues vgF vgT vgS).length
          * (sweepValues vdF vdT vdS).length * 2 : ℕ) : ℚ) * 100
        < 1 * 100 :=
          mul_lt_mul_of_pos_right ((div_lt_one hT).mpr hkT) (by norm_num)
      _ = 100 := one_mul _

/-- C6 counterexample: a complete, successful ID-VD run (one gate value 0,
drain values [0, 1]) emits progress values 0, 25, 50, 75 and then the
Complete event: progress is 75, not 100, at the final point of the
successful run, so progressPct does not reach 100 at the final point. -/
theorem C6_counterexample :
    progList (idvd_measurement_worker (niceEnv fun _ => 7) 0 0 0 1 0 1 1
        initState).events = [0, 25, 50, 75] ∧
    (idvd_measurement_worker (niceEnv fun _ => 7) 0 0 0 1 0 1 1
        initState).events.getLast? = some Event.complete ∧
    100 ∉ progList (idvd_measurement_worker (niceEnv fun _ => 7) 0 0 0 1 0 1 1
        initState).events := by
  have hv : sweepValues 0 0 1 = [0] := by with_unfolding_all rfl
  have hd : sweepValues 0 1 1 = [0, 1] := by with_unfolding_all rfl
  have h : progList (idvd_measurement_worker (niceEnv fun _ => 7) 0 0 0 1 0 1 1
      initState).events = [0, 25, 50, 75] := by
    norm_num [idvd_measurement_worker, hv, hd, idvdOuter, idvdOuterBody,
      idvdInner, idvdPoint, set_voltage_gradually, rampLoop,
      set_voltage_and_read, read_current, pauseWait, niceEnv, initState,
      progList, progOf, List.filterMap_cons, List.filterMap_nil]
  have hl : (idvd_measurement_worker (niceEnv fun _ => 7) 0 0 0 1 0 1 1
      initState).events.getLast? = some Event.complete := by
    norm_num [idvd_measurement_worker, hv, hd, idvdOuter, idvdOuterBody,
      idvdInner, idvdPoint, set_voltage_gradually, rampLoop,
      set_voltage_and_read, read_current, pauseWait, niceEnv, initState]
  refine ⟨h, hl, ?_⟩
  rw [h]
  norm_num

/-- C7 counterexample: an ID-VD run (one gate value 0, drain values [0, 1])
in the environment `stopEnv`, where the engine finds `is_paused` set at flag
observation 2 and a stop request clears both flags before observation 3.
After the pause-wait loop observes the cleared flag, the worker still
measures the pending point in full — one CSV row is appended after the stop
request took effect — and the run then ends by emitting a Complete event
(there is no distinct Stopped outcome). -/
theorem C7_counterexample :
    (idvd_measurement_worker stopEnv 5 0 0 1 0 1 1 initState).rows
      = [(0, 7, 7)] ∧
    (idvd_measurement_worker stopEnv 5 0 0 1 0 1 1 initState).events
      = [Event.data ⟨0, 7, 7, 0, 0⟩, Event.complete] := by
  have hv : sweepValues 0 0 1 = [0] := by with_unfolding_all rfl
  have hd : sweepValues 0 1 1 = [0, 1] := by with_unfolding_all rfl
  have hpw : pauseWait stopEnv 5 ⟨0, 2, [], [], [], 0⟩ = ⟨0, 4, [], [], [], 0⟩ := by
    with_unfolding_all rfl
  have hm : ∀ t, stopEnv.measuring t = decide (t < 3) := fun _ => rfl
  have hrd : ∀ n, stopEnv.read n = some 7 := fun _ => rfl
  constructor <;>
    norm_num [idvd_measurement_worker, hv, hd, hpw, hm, hrd, idvdOuter,
      idvdOuterBody, idvdInner, idvdPoint, set_voltage_gradually, rampLoop,
      set_voltage_and_read, read_current, initState]

/-- C7 (amended): the cancellation flag is observed at the top of the outer
loop and at the top of the inner loop; whenever `is_measuring` reads false
at one of these checkpoints, the loop exits at once — no further rows,
events, commands or queries are produced by that loop (the outer loop then
falls through to the Complete event).  There is, however, no re-check
between the pause-wait and the point's instrument I/O, so a stop observed
during the pause-wait does not prevent the pending point (see the
counterexample). -/
theorem C7_stop_checkpoints (env : Env) (fuel : ℕ) (total vg g : ℚ)
    (v : ℚ) (vs : List ℚ) (vds_vals : List ℚ) (gs : List ℚ) (st : WState)
    (h : env.measuring st.fTick = false) :
    idvdInner env fuel total vg (v :: vs) st
      = { st with fTick := st.fTick + 1 } ∧
    idvdOuter env fuel total vds_vals (g :: gs) st
      = ({ st with fTick := st.fTick + 1 }, true) := by
  constructor
  · simp [idvdInner, h]
  · simp [idvdOuter, h]

/-- Witness for C7_stop_checkpoints: a stopped engine at the loop tops. -/
theorem C7_stop_checkpoints_witness :
    idvdInner ⟨fun _ => some 7, fun _ => false, fun _ => false⟩ 0 4 5 [0] initState
      = { initState with fTick := initState.fTick + 1 } ∧
    idvdOuter ⟨fun _ => some 7, fun _ => false, fun _ => false⟩ 0 4 [0] [5] initState
      = ({ initState with fTick := initState.fTick + 1 }, true) :=
  C7_stop_checkpoints ⟨fun _ => some 7, fun _ => false, fun _ => false⟩
    0 4 5 5 0 [] [0] [] initState rfl

/-- C1 counterexample: an ID-VG run with drain values [0, 1] and gate values
[0..6] in the environment `failEnv` (the 5th measurement point's first read
raises).  Exactly 4 rows are committed before the error, and exactly one
Error event is emitted — but the engine does not abort the run: it proceeds
with the second drain value, appends 7 further rows (11 in total), and
finally emits a Complete event instead of ending in a Failed state. -/
theorem C1_counterexample :
    (idvg_measurement_worker failEnv 0 0 1 1 0 6 1 initState).rows.length = 11 ∧
    errorCount (idvg_measurement_worker failEnv 0 0 1 1 0 6 1 initState).events
      = 1 ∧
    (idvg_measurement_worker failEnv 0 0 1 1 0 6 1 initState).events.getLast?
      = some Event.complete := by
  have hv : sweepValues 0 1 1 = [0, 1] := by with_unfolding_all rfl
  have hg : sweepValues 0 6 1 = [0, 1, 2, 3, 4, 5, 6] := by with_unfolding_all rfl
  have hr : List.range 11 = [0, 1, 2, 3, 4, 5, 6, 7, 8, 9, 10] := by decide
  have hd : ∀ p, (Event.data p = Event.error) = False := by intro p; simp
  have hc : (Event.complete = Event.error) = False := by simp
  refine ⟨?_, ?_, ?_⟩ <;>
    norm_num [idvg_measurement_worker, hv, hg, hr, hd, hc, errorCount,
      idvgOuter, idvgInner, idvgPoint, set_voltage_gradually, rampLoop,
      set_voltage_and_read, read_current, pauseWait, failEnv, initState,
      List.count_cons]

/-- C1 (amended): an InstrumentError during a measurement point emits
exactly one Error event and abandons only the remaining points of the
current inner sweep — no row is appended for the failing point and the rest
of the inner value list is skipped; the worker then continues with the next
outer value rather than failing the whole run (see the counterexample for
the continuation and the final Complete event). -/
theorem C1_error_aborts_inner_only (env : Env) (fuel : ℕ) (total vds v : ℚ)
    (vs : List ℚ) (st : WState)
    (hm : env.measuring st.fTick = true)
    (hp : env.paused (st.fTick + 1) = false)
    (hr : env.read st.qTick = none) :
    idvgInner env fuel total vds (v :: vs) st
      = { st with fTick := st.fTick + 2, qTick := st.qTick + 1,
                  events := st.events ++ [Event.error] } := by
  have hpw : pauseWait env fuel { st with fTick := st.fTick + 1 }
      = { st with fTick := st.fTick + 2 } := by
    cases fuel
    all_goals simp [pauseWait, hp, Nat.add_assoc]
  simp only [idvgInner, hm]
  rw [hpw]
  simp [idvgPoint, read_current, hr]

/-- Witness for C1_error_aborts_inner_only: a single-point inner sweep whose
only read raises. -/
theorem C1_error_aborts_inner_only_witness :
    idvgInner ⟨fun _ => none, fun _ => true, fun _ => false⟩ 0 1 0 [0] initState
      = { initState with fTick := initState.fTick + 2,
                         qTick := initState.qTick + 1,
                         events := initState.events ++ [Event.error] } :=
  C1_error_aborts_inner_only ⟨fun _ => none, fun _ => true, fun _ => false⟩
    0 1 0 0 [] initState rfl rfl rfl

lemma scriptSweepRows_fst (f : ℕ → ℚ) (vals : List ℚ) :
    ∀ q, (scriptSweepRows f vals q).map (fun r => r.1) = vals := by
  induction vals with
  | nil => intro q; rfl
  | cons k ks ih =>
    intro q
    simp only [scriptSweepRows, List.map_cons, ih (q + 2)]

/-- C8 counterexample: in the original script FET_IDVG_2T_Keithley2450.py,
one drain hold with gate range 0 → 1 step 1 records rows for gate values
[0, 1, 1, 0] — the forward pass is followed by a reverse pass, so the gate
value 0 is recorded twice per drain value, not once, contradicting
"forward only, one point per gate value, in every implementation". -/
theorem C8_counterexample :
    (scriptIdvgHoldRows (fun _ => 7) 0 1 1 0).map (fun r => r.1)
      = [0, 1, 1, 0] ∧
    ((scriptIdvgHoldRows (fun _ => 7) 0 1 1 0).map (fun r => r.1)).count 0
      = 2 := by
  have hg : sweepValues 0 1 1 = [0, 1] := by with_unfolding_all rfl
  constructor <;>
    norm_num [scriptIdvgHoldRows, hg, scriptSweepRows, List.count_cons]

/-- C8 (amended): the GUI's ID-VG inner loop sweeps the gate forward only,
emitting exactly one point per gate value per outer drain value; the
original script's ID-VG sweep, however, records the gate values forward and
then in reverse (two rows per gate value per drain hold), so the
forward-only behaviour does not hold for every implementation. -/
theorem C8_gate_sweep_directions (f : ℕ → ℚ) (fuel : ℕ)
    (total vds vg_from vg_to vg_step : ℚ) (st : WState) (q : ℕ) :
    sweptList (idvgInner (niceEnv f) fuel total vds
        (sweepValues vg_from vg_to vg_step) st).events
      = sweptList st.events ++ sweepValues vg_from vg_to vg_step ∧
    (scriptIdvgHoldRows f vg_from vg_to vg_step q).map (fun r => r.1)
      = sweepValues vg_from vg_to vg_step
        ++ (sweepValues vg_from vg_to vg_step).reverse := by
  constructor
  · rw [idvgInner_nice]
    simp [sweptList_append, sweptList_trace]
  · rw [scriptIdvgHoldRows, List.map_append, scriptSweepRows_fst,
      scriptSweepRows_fst]

lemma append_data_rows (file : CsvFile) (row : List ℚ) :
    (append_data file row).rows = file.rows ++ [row] := by
  unfold append_data
  by_cases h : file.rows.length = 0
  · simp [h, List.length_eq_zero.mp h]
  · simp [h]

lemma append_data_header (file : CsvFile) (row : List ℚ) :
    (append_data file row).header = file.header := by
  unfold append_data
  by_cases h : file.rows.length = 0 <;> simp [h]

/-- C9: each append_data call appends exactly the one new row at the end of
the file, in arrival order: the header is unchanged, the previously written
rows are unchanged and keep their order (they are the prefix of the result),
and the length grows by exactly one — no reordering, batching, or partial
rows. -/
theorem C9_append_one_row (file : CsvFile) (row : List ℚ) :
    (append_data file row).header = file.header ∧
    (append_data file row).rows = file.rows ++ [row] ∧
    (append_data file row).rows.take file.rows.length = file.rows ∧
    (append_data file row).rows.length = file.rows.length + 1 := by
  refine ⟨append_data_header file row, append_data_rows file row, ?_, ?_⟩
  · rw [append_data_rows, List.take_left]
  · rw [append_data_rows]
    simp

/-- C10: when the computed target CSV file already exists,
`initialize_csv` neither writes a header row nor truncates it — the file is
left exactly as it is — so every row the new run appends lands after the old
run's rows; the header is only written when the file does not yet exist. -/
theorem C10_existing_file_kept (file : CsvFile) (t : MType)
    (newRows : List (List ℚ)) :
    init_csv (some file) t = file ∧
    (init_csv none t).header = headerFor t ∧
    (init_csv none t).rows = [] ∧
    (newRows.foldl append_data (init_csv (some file) t)).rows
      = file.rows ++ newRows ∧
    (newRows.foldl append_data (init_csv (some file) t)).rows.take
        file.rows.length = file.rows := by
  have hfold : ∀ (rs : List (List ℚ)) (g : CsvFile),
      (rs.foldl append_data g).rows = g.rows ++ rs := by
    intro rs
    induction rs with
    | nil => intro g; simp
    | cons r rest ih =>
      intro g
      rw [List.foldl_cons, ih, append_data_rows]
      simp
  refine ⟨rfl, rfl, rfl, ?_, ?_⟩
  · rw [hfold]
    rfl
  · rw [hfold]
    have : (init_csv (some file) t).rows = file.rows := rfl
    rw [this, List.take_left]
